import Mathlib

/-!
Formal model of the agent-chat.nvim session bridge (the Go RPC host in
src/unnamed/part_002, with its predecessor revision in src/unnamed/part_003
and the `uiSelect` helper in src/go/helper.go), together with theorems that
settle the specification's claims about it.

Strings that the Go code manipulates byte-wise (file contents, paths) are
modelled as `List Char`; identifiers and names are modelled as `String`.
Effectful steps (pipes, subprocess spawn, RPC round trips, the filesystem)
are modelled by explicit world records whose fields give each external
step's outcome, and by effect records that track which irreversible
actions the code performed.
-/

namespace AgentChat

/-- Permission option kinds, from the acp SDK's
`PermissionOptionKindAllowOnce` / `AllowAlways` / `RejectOnce` / `RejectAlways`. -/
inductive PermissionOptionKind
  | allowOnce
  | allowAlways
  | rejectOnce
  | rejectAlways
deriving DecidableEq, Repr

/-- One entry of `params.Options` in a `RequestPermission` request. -/
structure PermissionOption where
  optionId : String
  name : String
  kind : PermissionOptionKind
deriving DecidableEq, Repr

/-- Outcome of a permission request: a selected option id, or cancelled. -/
inductive PermissionOutcome
  | selected (optionId : String)
  | cancelled
deriving DecidableEq, Repr

/-- Is this kind one of the two allow kinds?  Mirrors the disjunction
`o.Kind == PermissionOptionKindAllowOnce || o.Kind == PermissionOptionKindAllowAlways`
in `RequestPermission` (part_002 line 473). -/
def isAllowKind (k : PermissionOptionKind) : Bool :=
  match k with
  | .allowOnce => true
  | .allowAlways => true
  | _ => false

/-- The auto-approve branch of `RequestPermission` (part_002 lines 471-481):
scan `params.Options` in order for the first allow-kind option; failing that,
return the first option if any; failing that, return cancelled. -/
def requestPermissionAuto (options : List PermissionOption) : PermissionOutcome :=
  match options.find? (fun o => isAllowKind o.kind) with
  | some o => .selected o.optionId
  | none =>
    match options with
    | o :: _ => .selected o.optionId
    | [] => .cancelled

/-- The `uiSelect` helper (src/go/helper.go lines 17-35): the host answers the
`inputlist` prompt with an integer; an answer outside `[1, len items]` is
normalised to `-1`, otherwise returned as is. -/
def uiSelect (items : List String) (hostChoice : Int) : Int :=
  if hostChoice < 1 ∨ hostChoice > (items.length : Int) then -1 else hostChoice

/-- Result of the interactive permission path.  Go indexing
`params.Options[choice-1]` panics when out of range, which the model makes
an explicit `panic` case so theorems can show it is unreachable. -/
inductive PermResult
  | ok (outcome : PermissionOutcome) (appended : List String)
  | panic
deriving DecidableEq, Repr

/-- The interactive branch of `RequestPermission` (part_002 lines 483-511):
display the option names through `uiSelect`, treat a result outside
`[1, len(params.Options)]` as cancelled with a visible denied marker, and
otherwise select the 1-based chosen option, echoing a granted marker. -/
def requestPermissionInteractive (options : List PermissionOption)
    (hostChoice : Int) : PermResult :=
  let choice := uiSelect (options.map fun o => o.name) hostChoice
  if choice < 1 ∨ choice > (options.length : Int) then
    .ok .cancelled ["\n[Permission denied]\n"]
  else
    match options[(choice - 1).toNat]? with
    | some o => .ok (.selected o.optionId) ["\n[Permission granted: " ++ o.name ++ "]\n"]
    | none => .panic

/-- Error kinds surfaced by the bridge, one constructor per distinct
`fmt.Errorf` site the claims mention. -/
inductive AcpError
  | alreadyExists (bufnr : Int)
  | notFoundSession (bufnr : Int)
  | emptyPrompt
  | invalidPath (path : List Char)
  | stdinPipeError
  | stdoutPipeError
  | spawnFailure
  | initializeError
  | getwdError
  | newSessionError
  | readError (path : List Char)
  | bufferLinesError (path : List Char)
  | setBufferLinesError (path : List Char)
  | mkdirError (path : List Char)
  | writeError (path : List Char)
deriving DecidableEq, Repr

/-- Split file content on newline characters; models Go
`strings.Split(content, "\n")` (part_002 line 636). -/
def splitLines (content : List Char) : List (List Char) :=
  content.splitOn '\n'

/-- Join lines with a newline separator; models Go
`strings.Join(lines, "\n")` (part_002 line 647). -/
def joinLines (lines : List (List Char)) : List Char :=
  List.intercalate ['\n'] lines

/-- The local `start` computed by the disk branch of `ReadTextFile`
(part_002 lines 637-640): `min(max(*params.Line-1, 0), len(lines))` when a
positive line is given, else 0. -/
def readStartIndex (line : Option Int) (len : Nat) : Nat :=
  match line with
  | some l => if 0 < l then min (max (l - 1) 0).toNat len else 0
  | none => 0

/-- The local `end` computed by the disk branch of `ReadTextFile`
(part_002 lines 641-646): `start + *params.Limit` when a positive limit is
given and that stays below the line count, else the line count. -/
def readEndIndex (lim : Option Int) (start len : Nat) : Nat :=
  match lim with
  | some k => if 0 < k ∧ start + k.toNat < len then start + k.toNat else len
  | none => len

/-- The line/limit slicing `ReadTextFile` applies to content read from disk
(part_002 lines 634-648, identically part_003 lines 176-190): slice
`lines[start:end]` only when a line or limit parameter is present. -/
def sliceFileContent (content : List Char) (line lim : Option Int) : List Char :=
  if line.isNone ∧ lim.isNone then content
  else
    let lines := splitLines content
    let start := readStartIndex line lines.length
    joinLines ((lines.drop start).take (readEndIndex lim start lines.length - start))

/-- Modelled from the spec claim (C5): the 0-based start of the slice — a
start line of 0 or absent behaves as line 1; a start past the end clamps
to the content length. -/
def specStartIndex (line : Option Int) (len : Nat) : Nat :=
  match line with
  | some l => if 0 < l then min (l - 1).toNat len else 0
  | none => 0

/-- Modelled from the spec claim (C5): the number of lines kept — at most
`limit` lines; a limit of 0 or absent keeps all remaining lines; a limit
exceeding the remaining lines is clamped to them. -/
def specSliceCount (lim : Option Int) (remaining : Nat) : Nat :=
  match lim with
  | some k => if 0 < k then min k.toNat remaining else remaining
  | none => remaining

/-- Modelled from the spec claim (C5): the slice of the content's line
array starting at the optional 1-based start line and containing at most
`limit` lines. -/
def specLineSlice (content : List Char) (line lim : Option Int) : List Char :=
  let lines := splitLines content
  let start := specStartIndex line lines.length
  joinLines ((lines.drop start).take (specSliceCount lim (lines.length - start)))

/-- Is the path absolute?  Models Go `filepath.IsAbs` on Unix — the path
begins with a slash (checked first in both file capabilities, part_002
lines 578 and 607). -/
def isAbsPath (p : List Char) : Bool :=
  match p with
  | c :: _ => c = '/'
  | [] => false

/-- The filesystem/editor state `ReadTextFile` consults: an optional open
buffer matching the path (its live lines), whether the nvim BufferLines
call succeeds, and the file's on-disk content (`none` means the read
errors). -/
structure FsWorld where
  openBuffer : Option (List (List Char))
  bufLinesOk : Bool
  disk : Option (List Char)
deriving DecidableEq, Repr

/-- Which observable actions a `ReadTextFile` call performed. -/
structure ReadEffects where
  bufferQueried : Bool
  bufferRead : Bool
  diskRead : Bool
  msgAppended : Bool
deriving DecidableEq, Repr

/-- No observable action taken. -/
def noReadEffects : ReadEffects := ⟨false, false, false, false⟩

/-- Modelled from the spec: semantics of the external nvim API call
`nvim_buf_get_lines(start, stop, strict_indexing=false)` (not part of this
repository) — a negative stop index resolves to length+1+stop, and both
indices clamp to the buffer length. -/
def nvimGetLines (lines : List (List Char)) (start : Nat) (stop : Int) :
    List (List Char) :=
  let len := lines.length
  let stopN : Nat := if stop < 0 then ((len : Int) + 1 + stop).toNat else stop.toNat
  let lo := min start len
  let hi := min stopN len
  (lines.drop lo).take (hi - lo)

/-- `ReadTextFile` (part_002 lines 606-652): reject non-absolute paths
before anything else; prefer live buffer content (sliced through nvim's
BufferLines with a -1 open-end sentinel) over disk; otherwise read the
file and apply `sliceFileContent`; append a byte-count confirmation on
success. -/
def readTextFile (path : List Char) (line lim : Option Int) (w : FsWorld) :
    Except AcpError (List Char) × ReadEffects :=
  if ¬ isAbsPath path then (.error (.invalidPath path), noReadEffects)
  else
    match w.openBuffer with
    | some lines =>
      let start : Nat :=
        match line with
        | some l => if 0 < l then (l - 1).toNat else 0
        | none => 0
      let stop : Int :=
        match lim with
        | some k => if 0 < k then (start : Int) + k else -1
        | none => -1
      if w.bufLinesOk then
        (.ok (joinLines (nvimGetLines lines start stop)), ⟨true, true, false, true⟩)
      else (.error (.bufferLinesError path), ⟨true, true, false, false⟩)
    | none =>
      match w.disk with
      | some content =>
        (.ok (sliceFileContent content line lim), ⟨true, false, true, true⟩)
      | none => (.error (.readError path), ⟨true, false, true, false⟩)

/-- The filesystem/editor state `WriteTextFile` consults and mutates. -/
structure WriteWorld where
  bufferExists : Bool
  setLinesOk : Bool
  mkdirOk : Bool
  writeOk : Bool
deriving DecidableEq, Repr

/-- Which observable actions a `WriteTextFile` call performed. -/
structure WriteEffects where
  bufferReplaced : Bool
  mkdirAttempted : Bool
  fileWritten : Bool
  msgAppended : Bool
deriving DecidableEq, Repr

/-- No observable action taken. -/
def noWriteEffects : WriteEffects := ⟨false, false, false, false⟩

/-- `WriteTextFile` (part_002 lines 577-603): reject non-absolute paths
before anything else; replace a matching open buffer's full contents if
one exists; otherwise create parent directories and write the file;
append a byte-count confirmation on success. -/
def writeTextFile (path _content : List Char) (w : WriteWorld) :
    Except AcpError Unit × WriteEffects :=
  if ¬ isAbsPath path then (.error (.invalidPath path), noWriteEffects)
  else if w.bufferExists then
    if w.setLinesOk then (.ok (), ⟨true, false, false, true⟩)
    else (.error (.setBufferLinesError path), ⟨false, false, false, false⟩)
  else
    if ¬ w.mkdirOk then (.error (.mkdirError path), ⟨false, true, false, false⟩)
    else if ¬ w.writeOk then (.error (.writeError path), ⟨false, true, false, false⟩)
    else (.ok (), ⟨false, true, true, true⟩)

/-- A loosely-typed configuration value, modelling the Go `any` values of
the `map[string]any` MCP server configuration. -/
inductive ConfigVal
  | str (s : String)
  | list (items : List ConfigVal)
  | table (entries : List (String × ConfigVal))
  | other

/-- Association-list lookup, modelling Go map indexing `config[key]`. -/
def lookupCfg (config : List (String × ConfigVal)) (key : String) : Option ConfigVal :=
  (config.find? (fun e => e.1 = key)).map (fun e => e.2)

/-- The checked type assertion `v.(string)` in its `value, ok` form:
`some` when the value is a string, `none` otherwise. -/
def asStr : Option ConfigVal → Option String
  | some (.str s) => some s
  | _ => none

/-- One HTTP header sent to an http/sse MCP server. -/
structure HttpHeader where
  name : String
  value : String
deriving DecidableEq, Repr

/-- One environment variable passed to a stdio MCP server. -/
structure EnvVariable where
  name : String
  value : String
deriving DecidableEq, Repr

/-- An http-transport MCP server descriptor. -/
structure McpHttp where
  name : String
  url : String
  headers : List HttpHeader
deriving DecidableEq, Repr

/-- An sse-transport MCP server descriptor. -/
structure McpSse where
  name : String
  url : String
  headers : List HttpHeader
deriving DecidableEq, Repr

/-- A stdio-transport MCP server descriptor. -/
structure McpStdio where
  name : String
  command : String
  args : List String
  env : List EnvVariable
deriving DecidableEq, Repr

/-- An MCP server descriptor; `ConvertMcpConfigToMcpServer` always sets
exactly one of the Go struct's three pointers, so a sum models it. -/
inductive McpServer
  | http (s : McpHttp)
  | sse (s : McpSse)
  | stdio (s : McpStdio)
deriving DecidableEq, Repr

/-- Result of the config translation.  The Go function's `error` return is
nil on every path; the bare type assertion `config["url"].(string)`
(part_002 lines 706 and 715) aborts with a runtime panic when the value is
absent or not a string, which the model makes an explicit `panic` case. -/
inductive ConvertResult
  | ok (srv : McpServer)
  | panic
deriving DecidableEq, Repr

/-- `ConvertMcpConfigToMcpServer` (part_002 lines 682-765, identically
part_003 lines 223-306): a `type` of http/sse builds an http/sse
descriptor from `url` (bare assertion — panics when missing or non-string),
`headers` (non-string values become empty strings) and `name`; anything
else builds a stdio descriptor from `cmd` (first string element is the
command, remaining string elements the args), `env` (string values only)
and `name`.  All lists start as empty slices, never nil. -/
def convertMcpConfigToMcpServer (name : String)
    (config : List (String × ConfigVal)) : ConvertResult :=
  let t := (asStr (lookupCfg config "type")).getD ""
  if t = "http" ∨ t = "sse" then
    let headers : List HttpHeader :=
      match lookupCfg config "headers" with
      | some (.table entries) =>
          entries.map (fun e => ⟨e.1, (asStr (some e.2)).getD ""⟩)
      | _ => []
    let serverName := (asStr (lookupCfg config "name")).getD name
    match asStr (lookupCfg config "url") with
    | some url =>
        if t = "http" then .ok (.http ⟨serverName, url, headers⟩)
        else .ok (.sse ⟨serverName, url, headers⟩)
    | none => .panic
  else
    let cmdList : Option (List ConfigVal) :=
      match lookupCfg config "cmd" with
      | some (.list items) => some items
      | _ => none
    let args : List String :=
      match cmdList with
      | some items =>
          if 1 < items.length then (items.drop 1).filterMap (fun a => asStr (some a))
          else []
      | none => []
    let command : String :=
      match cmdList with
      | some (item :: _) => (asStr (some item)).getD ""
      | _ => ""
    let env : List EnvVariable :=
      match lookupCfg config "env" with
      | some (.table entries) =>
          entries.filterMap (fun e =>
            match e.2 with
            | .str s => some ⟨e.1, s⟩
            | _ => none)
      | _ => []
    let serverName := (asStr (lookupCfg config "name")).getD name
    .ok (.stdio ⟨serverName, command, args, env⟩)

/-- The agent capabilities returned by the initialize handshake that matter
to MCP filtering (`initRes.AgentCapabilities.McpCapabilities`). -/
structure InitCaps where
  mcpHttp : Bool
  mcpSse : Bool
deriving DecidableEq, Repr

/-- The post-negotiation filter in `AcpNewSession` (part_002 lines 847-861,
identically `ACPStart` part_003 lines 388-402): drop http descriptors when
the agent did not advertise http MCP support, drop sse descriptors when it
did not advertise sse support, keep everything else. -/
def filterMcpServers (supportHttp supportSse : Bool) (servers : List McpServer) :
    List McpServer :=
  servers.filter (fun srv =>
    match srv with
    | .http _ => supportHttp
    | .sse _ => supportSse
    | .stdio _ => true)

/-- Convert every configured MCP server, aborting on the first panic;
models the loop in `AcpNewSession` (part_002 lines 837-845). -/
inductive ConvertAllResult
  | ok (servers : List McpServer)
  | panic
deriving DecidableEq, Repr

/-- Fold `convertMcpConfigToMcpServer` over the configuration mapping. -/
def convertAll (cfgs : List (String × List (String × ConfigVal))) : ConvertAllResult :=
  match cfgs with
  | [] => .ok []
  | (name, cfg) :: rest =>
    match convertMcpConfigToMcpServer name cfg with
    | .panic => .panic
    | .ok srv =>
      match convertAll rest with
      | .panic => .panic
      | .ok srvs => .ok (srv :: srvs)

/-- One live session as stored in the manager table. -/
structure AcpSession where
  bufnr : Int
  sessionId : String
  autoApprove : Bool
deriving DecidableEq, Repr

/-- The session table, modelling the Go `map[int]*AcpSession`. -/
abbrev SessionTable := List (Int × AcpSession)

/-- Map lookup `m.sessions[bufnr]`. -/
def lookupSession (tbl : SessionTable) (bufnr : Int) : Option AcpSession :=
  (tbl.find? (fun e => e.1 = bufnr)).map (fun e => e.2)

/-- Outcomes of the external steps `AcpNewSession` performs, in program
order: pipe creation, subprocess start, the initialize round trip, the
working-directory query, and the new-session round trip. -/
structure SpawnWorld where
  stdinPipeOk : Bool
  stdoutPipeOk : Bool
  startOk : Bool
  initResult : Option InitCaps
  getwdOk : Bool
  newSessionResult : Option String
deriving DecidableEq, Repr

/-- Which irreversible actions `AcpNewSession` performed. -/
structure SessionEffects where
  processStarted : Bool
  processKilled : Bool
  scopeCancelled : Bool
  newSessionSent : Bool
  newSessionMcpPayload : Option (List McpServer)
deriving DecidableEq, Repr

/-- No external action taken. -/
def noSessionEffects : SessionEffects := ⟨false, false, false, false, none⟩

/-- `AcpSession.cleanup` (part_002 lines 964-976): cancel the execution
scope, and kill the subprocess when `cmd` was set, which happens exactly
when `cmd.Start()` succeeded. -/
def cleanupEffects (e : SessionEffects) : SessionEffects :=
  { e with scopeCancelled := true, processKilled := e.processStarted }

/-- Overall result of `AcpNewSession`. -/
inductive NewSessionResult
  | ok
  | err (e : AcpError)
  | panic
deriving DecidableEq, Repr

/-- `AcpNewSession` (part_002 lines 768-887, identically `ACPStart`
part_003 lines 309-428): duplicate check first, then pipes, spawn,
initialize, getwd, MCP conversion, capability filtering, the new-session
round trip, and only then the table insert.  Pipe and spawn failures
return without cleanup (the Go code never calls `session.cleanup()` on
those paths); failures from initialize onwards run cleanup.  The table is
mutated only by the final insert. -/
def acpNewSession (tbl : SessionTable) (bufnr : Int)
    (mcpConfigs : List (String × List (String × ConfigVal))) (w : SpawnWorld) :
    NewSessionResult × SessionTable × SessionEffects :=
  match lookupSession tbl bufnr with
  | some _ => (.err (.alreadyExists bufnr), tbl, noSessionEffects)
  | none =>
    if ¬ w.stdinPipeOk then (.err .stdinPipeError, tbl, noSessionEffects)
    else if ¬ w.stdoutPipeOk then (.err .stdoutPipeError, tbl, noSessionEffects)
    else if ¬ w.startOk then (.err .spawnFailure, tbl, noSessionEffects)
    else
      let started : SessionEffects := ⟨true, false, false, false, none⟩
      match w.initResult with
      | none => (.err .initializeError, tbl, cleanupEffects started)
      | some caps =>
        if ¬ w.getwdOk then (.err .getwdError, tbl, cleanupEffects started)
        else
          match convertAll mcpConfigs with
          | .panic => (.panic, tbl, started)
          | .ok servers =>
            let filtered := filterMcpServers caps.mcpHttp caps.mcpSse servers
            let sent : SessionEffects := ⟨true, false, false, true, some filtered⟩
            match w.newSessionResult with
            | none => (.err .newSessionError, tbl, cleanupEffects sent)
            | some sid => (.ok, (bufnr, ⟨bufnr, sid, false⟩) :: tbl, sent)

/-- `AcpSendPrompt` (part_002 lines 889-920, identically `ACPSendPrompt`
part_003 lines 446-477): the empty-prompt check precedes the locked table
lookup.  The second component records whether the session table was read;
the forwarding of a non-empty prompt to a live session's connection is an
external call, modelled as success. -/
def acpSendPrompt (tbl : SessionTable) (bufnr : Int) (prompt : List Char) :
    Except AcpError Unit × Bool :=
  if prompt = [] then (.error .emptyPrompt, false)
  else
    match lookupSession tbl bufnr with
    | none => (.error (.notFoundSession bufnr), true)
    | some _ => (.ok (), true)

/-- Atomic steps of a session-manager operation, in program order, for
reasoning about which steps run while the manager mutex is held. -/
inductive LockEvent
  | acquire
  | release
  | tableLookup
  | tableInsert
  | tableDelete
  | spawnCall
  | initializeCall
  | newSessionCall
  | promptCall
  | cancelCall
  | setModeCall
deriving DecidableEq, Repr

/-- Is this step a blocking protocol call in the sense of the spec
(subprocess spawn, initialize, new-session, prompt, cancel, set-mode)? -/
def isBlockingCall : LockEvent → Bool
  | .spawnCall => true
  | .initializeCall => true
  | .newSessionCall => true
  | .promptCall => true
  | .cancelCall => true
  | .setModeCall => true
  | _ => false

/-- Is the manager mutex held when the step at index `i` runs: more
acquires than releases among the preceding steps. -/
def mutexHeldAt (evs : List LockEvent) (i : Nat) : Bool :=
  Nat.blt ((evs.take i).count .release) ((evs.take i).count .acquire)

/-- Does the trace satisfy the spec's lock discipline: no blocking
protocol call runs while the mutex is held. -/
def lockNeverHeldOnBlocking (evs : List LockEvent) : Bool :=
  (List.range evs.length).all fun i =>
    !(isBlockingCall (evs.getD i .release)) || !(mutexHeldAt evs i)

/-- Step trace of `AcpNewSession` (part_002 lines 768-887): `m.mu.Lock()`
with `defer m.mu.Unlock()` on entry, so the release runs only at return —
after the duplicate check, the spawn, both handshakes and the insert. -/
def acpNewSessionEvents : List LockEvent :=
  [.acquire, .tableLookup, .spawnCall, .initializeCall, .newSessionCall,
   .tableInsert, .release]

/-- Step trace of `AcpSendPrompt` (part_002 lines 889-920): the lock is
released before the prompt round trip. -/
def acpSendPromptEvents : List LockEvent :=
  [.acquire, .tableLookup, .release, .promptCall]

/-- Step trace of `AcpCancel` (part_002 lines 923-939). -/
def acpCancelEvents : List LockEvent :=
  [.acquire, .tableLookup, .release, .cancelCall]

/-- Step trace of `AcpSetMode` (part_002 lines 942-962). -/
def acpSetModeEvents : List LockEvent :=
  [.acquire, .tableLookup, .release, .setModeCall]

/-- Step trace of `ACPStop` (part_003 lines 431-444): lock held across
cleanup and the table delete; no blocking protocol call occurs. -/
def acpStopEvents : List LockEvent :=
  [.acquire, .tableLookup, .tableDelete, .release]

theorem find_first_eq_head_filter {α : Type} (p : α → Bool) (l : List α) :
    l.find? p = (l.filter p).head? := by
  induction l with
  | nil => rfl
  | cons x xs ih =>
    rw [List.find?_cons, List.filter_cons]
    cases h : p x
    · rw [ih]
      simp
    · simp

/-- C3 counterexample: with auto-approve set, the code selects the first
allow option in declaration order — `[allow-once, allow-always]` yields the
allow-once option, not the always-allow one the claim prefers — and for a
list with no allow option at all it selects the first option instead of the
cancelled outcome the claim requires. -/
theorem requestPermissionAuto_claim_cex :
    requestPermissionAuto [⟨"once", "Allow once", .allowOnce⟩,
        ⟨"always", "Allow always", .allowAlways⟩] = .selected "once" ∧
    requestPermissionAuto [⟨"reject", "Reject", .rejectOnce⟩] = .selected "reject" ∧
    requestPermissionAuto [⟨"reject", "Reject", .rejectOnce⟩] ≠ .cancelled := by
  refine ⟨rfl, rfl, by decide⟩

/-- C3 (amended): with auto-approve set, RequestPermission selects the first
option whose kind is allow-once or allow-always in declaration order (no
preference between the two allow kinds); if no allow option exists and the
list is non-empty it selects the first listed option; only an empty option
list yields the cancelled outcome.  With options `[reject-once, allow-once]`
it selects allow-once, never the first-listed option. -/
theorem requestPermissionAuto_first_allow (options : List PermissionOption) :
    (∀ o os, options.filter (fun o => isAllowKind o.kind) = o :: os →
      requestPermissionAuto options = .selected o.optionId) ∧
    (options.filter (fun o => isAllowKind o.kind) = [] →
      ∀ o os, options = o :: os → requestPermissionAuto options = .selected o.optionId) ∧
    (options = [] → requestPermissionAuto options = .cancelled) ∧
    requestPermissionAuto
      [⟨"reject", "Reject", .rejectOnce⟩, ⟨"allow", "Allow", .allowOnce⟩] =
      .selected "allow" := by
  refine ⟨?_, ?_, ?_, rfl⟩
  · intro o os h
    unfold requestPermissionAuto
    rw [find_first_eq_head_filter, h]
    rfl
  · intro hf o os h
    unfold requestPermissionAuto
    rw [find_first_eq_head_filter, hf, h]
    rfl
  · intro h
    subst h
    rfl

/-- Witness for the amended C3 theorem at concrete inputs. -/
theorem requestPermissionAuto_first_allow_witness :
    requestPermissionAuto [⟨"r", "Reject", .rejectOnce⟩, ⟨"a", "Allow", .allowOnce⟩] =
      .selected "a" ∧
    requestPermissionAuto [⟨"r", "Reject", .rejectOnce⟩] = .selected "r" ∧
    requestPermissionAuto ([] : List PermissionOption) = .cancelled :=
  ⟨(requestPermissionAuto_first_allow
      [⟨"r", "Reject", .rejectOnce⟩, ⟨"a", "Allow", .allowOnce⟩]).1
      ⟨"a", "Allow", .allowOnce⟩ [] (by decide),
   (requestPermissionAuto_first_allow [⟨"r", "Reject", .rejectOnce⟩]).2.1
      (by decide) ⟨"r", "Reject", .rejectOnce⟩ [] rfl,
   (requestPermissionAuto_first_allow []).2.2.1 rfl⟩

/-- C4: for every interactive permission request and every integer the host
returns, a selection outside `[1, len(options)]` yields the cancelled
outcome with the denied marker and the option list is never indexed out of
range (no panic); a selection inside the range yields the selected outcome
whose option id is the id of the option at that 1-based position, which is
one of the options offered. -/
theorem requestPermission_selection_bounds (options : List PermissionOption)
    (hostChoice : Int) :
    ((hostChoice < 1 ∨ (options.length : Int) < hostChoice) →
      requestPermissionInteractive options hostChoice =
        .ok .cancelled ["\n[Permission denied]\n"]) ∧
    (1 ≤ hostChoice → hostChoice ≤ (options.length : Int) →
      ∃ o, options[(hostChoice - 1).toNat]? = some o ∧ o ∈ options ∧
        requestPermissionInteractive options hostChoice =
          .ok (.selected o.optionId) ["\n[Permission granted: " ++ o.name ++ "]\n"]) ∧
    requestPermissionInteractive options hostChoice ≠ .panic := by
  by_cases hc : hostChoice < 1 ∨ (options.length : Int) < hostChoice
  · have hres : requestPermissionInteractive options hostChoice =
        .ok .cancelled ["\n[Permission denied]\n"] := by
      simp only [requestPermissionInteractive, uiSelect, List.length_map]
      rw [if_pos hc]
      norm_num
    refine ⟨fun _ => hres, ?_, by simp [hres]⟩
    intro h1 h2
    exfalso
    rcases hc with h | h <;> omega
  · push_neg at hc
    obtain ⟨h1, h2⟩ := hc
    have hidx : (hostChoice - 1).toNat < options.length := by omega
    have hsome : options[(hostChoice - 1).toNat]? = some (options.get ⟨(hostChoice - 1).toNat, hidx⟩) :=
      List.getElem?_eq_getElem hidx
    have hres : requestPermissionInteractive options hostChoice =
        .ok (.selected (options.get ⟨(hostChoice - 1).toNat, hidx⟩).optionId)
          ["\n[Permission granted: " ++ (options.get ⟨(hostChoice - 1).toNat, hidx⟩).name ++ "]\n"] := by
      simp only [requestPermissionInteractive, uiSelect, List.length_map]
      rw [if_neg (by omega)]
      rw [if_neg (by omega)]
      rw [hsome]
    refine ⟨?_, ?_, by simp [hres]⟩
    · intro h
      exfalso
      rcases h with h | h <;> omega
    · intro _ _
      exact ⟨options.get ⟨(hostChoice - 1).toNat, hidx⟩, hsome,
        List.get_mem options _ hidx, hres⟩

/-- Witness for the C4 theorem at concrete inputs: two offered options, host
answers `0` (cancelled) and `2` (the allow option). -/
theorem requestPermission_selection_bounds_witness :
    requestPermissionInteractive
      [⟨"r", "Reject", .rejectOnce⟩, ⟨"a", "Allow", .allowOnce⟩] 0 =
      .ok .cancelled ["\n[Permission denied]\n"] ∧
    (∃ o, [⟨"r", "Reject", .rejectOnce⟩,
        (⟨"a", "Allow", .allowOnce⟩ : PermissionOption)][((2 : Int) - 1).toNat]? = some o ∧
      o ∈ [⟨"r", "Reject", .rejectOnce⟩, (⟨"a", "Allow", .allowOnce⟩ : PermissionOption)] ∧
      requestPermissionInteractive
        [⟨"r", "Reject", .rejectOnce⟩, ⟨"a", "Allow", .allowOnce⟩] 2 =
        .ok (.selected o.optionId) ["\n[Permission granted: " ++ o.name ++ "]\n"]) :=
  ⟨(requestPermission_selection_bounds
      [⟨"r", "Reject", .rejectOnce⟩, ⟨"a", "Allow", .allowOnce⟩] 0).1 (by norm_num),
   (requestPermission_selection_bounds
      [⟨"r", "Reject", .rejectOnce⟩, ⟨"a", "Allow", .allowOnce⟩] 2).2.1
      (by norm_num) (by norm_num)⟩

theorem readStartIndex_eq_spec (line : Option Int) (len : Nat) :
    readStartIndex line len = specStartIndex line len := by
  cases line with
  | none => rfl
  | some l =>
    simp only [readStartIndex, specStartIndex]
    split_ifs with h
    · omega
    · rfl

theorem readStartIndex_le (line : Option Int) (len : Nat) :
    readStartIndex line len ≤ len := by
  cases line with
  | none => exact Nat.zero_le _
  | some l =>
    simp only [readStartIndex]
    split_ifs with h <;> omega

theorem readEndIndex_sub_eq_spec (lim : Option Int) (start len : Nat)
    (hs : start ≤ len) :
    readEndIndex lim start len - start = specSliceCount lim (len - start) := by
  cases lim with
  | none => simp [readEndIndex, specSliceCount]
  | some k =>
    simp only [readEndIndex, specSliceCount]
    split_ifs with h1 h2 <;> omega

theorem sliceFileContent_eq_specLineSlice (content : List Char) (line lim : Option Int) :
    sliceFileContent content line lim = specLineSlice content line lim := by
  unfold sliceFileContent specLineSlice
  by_cases h : line.isNone ∧ lim.isNone
  · rw [if_pos h]
    obtain ⟨h1, h2⟩ := h
    rw [Option.isNone_iff_eq_none] at h1 h2
    subst h1
    subst h2
    show content =
      joinLines (((splitLines content).drop (specStartIndex none (splitLines content).length)).take
        (specSliceCount none ((splitLines content).length - specStartIndex none (splitLines content).length)))
    simp only [specStartIndex, specSliceCount, List.drop_zero, Nat.sub_zero, List.take_length]
    show content = List.intercalate ['\n'] (content.splitOn '\n')
    rw [List.intercalate_splitOn]
  · rw [if_neg h]
    show joinLines (((splitLines content).drop (readStartIndex line (splitLines content).length)).take
        (readEndIndex lim (readStartIndex line (splitLines content).length) (splitLines content).length -
          readStartIndex line (splitLines content).length)) =
      joinLines (((splitLines content).drop (specStartIndex line (splitLines content).length)).take
        (specSliceCount lim ((splitLines content).length - specStartIndex line (splitLines content).length)))
    rw [readEndIndex_sub_eq_spec _ _ _ (readStartIndex_le line (splitLines content).length),
      readStartIndex_eq_spec]

/-- C5: for every file content and every optional 1-based start line and
optional limit, ReadTextFile returns the slice of the content's line array
described by the claim — start 0 or absent behaves as line 1, an
out-of-range start clamps to the content length, a limit of 0 or absent
returns all remaining lines, and a limit exceeding the remaining lines is
clamped.  In particular a 10-line file with line 5 and limit 100 yields
lines 5 through 10 inclusive. -/
theorem readTextFile_honors_line_limit (content : List Char) (line lim : Option Int) :
    (readTextFile "/f".toList line lim ⟨none, true, some content⟩).1 =
      .ok (specLineSlice content line lim) ∧
    (readTextFile "/f".toList (some 5) (some 100)
        ⟨none, true, some "1\n2\n3\n4\n5\n6\n7\n8\n9\n10".toList⟩).1 =
      .ok "5\n6\n7\n8\n9\n10".toList := by
  constructor
  · simp [readTextFile, isAbsPath, sliceFileContent_eq_specLineSlice]
  · rfl

/-- C6: for every non-absolute input path, both ReadTextFile and
WriteTextFile fail with the invalid-path error before reading or mutating
any buffer or disk state: no buffer is queried, no file is read, no
directory is created, no file or buffer is written, and no confirmation is
appended. -/
theorem nonAbsolutePath_rejected_before_effects (path : List Char)
    (h : isAbsPath path = false) :
    (∀ line lim w, readTextFile path line lim w =
      (.error (.invalidPath path), noReadEffects)) ∧
    (∀ content w, writeTextFile path content w =
      (.error (.invalidPath path), noWriteEffects)) := by
  refine ⟨fun line lim w => ?_, fun content w => ?_⟩
  · unfold readTextFile
    rw [if_pos (by simp [h])]
  · unfold writeTextFile
    rw [if_pos (by simp [h])]

/-- Witness for the C6 theorem at the concrete relative path "rel.txt". -/
theorem nonAbsolutePath_rejected_before_effects_witness :
    readTextFile "rel.txt".toList none none ⟨none, true, some []⟩ =
      (.error (.invalidPath "rel.txt".toList), noReadEffects) ∧
    writeTextFile "rel.txt".toList "x".toList ⟨true, true, true, true⟩ =
      (.error (.invalidPath "rel.txt".toList), noWriteEffects) :=
  ⟨(nonAbsolutePath_rejected_before_effects "rel.txt".toList (by decide)).1
      none none ⟨none, true, some []⟩,
   (nonAbsolutePath_rejected_before_effects "rel.txt".toList (by decide)).2
      "x".toList ⟨true, true, true, true⟩⟩

theorem lookupSession_none_not_mem (tbl : SessionTable) (bufnr : Int)
    (h : lookupSession tbl bufnr = none) : bufnr ∉ tbl.map Prod.fst := by
  have hf : tbl.find? (fun e => e.1 = bufnr) = none := by
    cases hfind : tbl.find? (fun e => e.1 = bufnr) with
    | none => rfl
    | some e =>
      rw [lookupSession, hfind] at h
      simp at h
  rw [List.find?_eq_none] at hf
  intro hmem
  obtain ⟨e, he, hfst⟩ := List.mem_map.mp hmem
  exact hf e he (by simp [hfst])

/-- C1: at most one session is registered per buffer — a NewSession call
for a buffer that already has a live session fails with the
already-exists error, takes no external action and leaves the table
unchanged; and the operation preserves distinctness of the table's buffer
keys, so no second registration for the same key ever occurs. -/
theorem acpNewSession_at_most_one (tbl : SessionTable) (bufnr : Int)
    (cfgs : List (String × List (String × ConfigVal))) (w : SpawnWorld) :
    (∀ s, lookupSession tbl bufnr = some s →
      acpNewSession tbl bufnr cfgs w =
        (.err (.alreadyExists bufnr), tbl, noSessionEffects)) ∧
    ((tbl.map Prod.fst).Nodup →
      (((acpNewSession tbl bufnr cfgs w).2.1).map Prod.fst).Nodup) := by
  constructor
  · intro s h
    unfold acpNewSession
    rw [h]
  · intro hnd
    obtain ⟨sp, so, st, ir, gw, nr⟩ := w
    cases hl : lookupSession tbl bufnr with
    | some s => simp [acpNewSession, hl, hnd]
    | none =>
      have hmem := lookupSession_none_not_mem tbl bufnr hl
      cases sp <;> cases so <;> cases st <;> cases ir <;> cases gw <;>
        cases hc : convertAll cfgs <;> cases nr <;>
        simp_all [acpNewSession, hl, hnd, hmem, hc]

/-- Witness for the C1 theorem: a second NewSession for buffer 1 fails and
leaves the one-entry table unchanged. -/
theorem acpNewSession_at_most_one_witness :
    acpNewSession [((1 : Int), ⟨1, "sid", false⟩)] 1 []
      ⟨true, true, true, some ⟨true, true⟩, true, some "s2"⟩ =
      (.err (.alreadyExists 1), [((1 : Int), ⟨1, "sid", false⟩)], noSessionEffects) :=
  (acpNewSession_at_most_one [((1 : Int), ⟨1, "sid", false⟩)] 1 []
    ⟨true, true, true, some ⟨true, true⟩, true, some "s2"⟩).1 ⟨1, "sid", false⟩ rfl

/-- C2 counterexample: when stdin-pipe creation fails, AcpNewSession
returns an error with the table unchanged, but the session's cancellable
execution scope has NOT been cancelled — the pipe-creation and spawn
failure paths return without calling cleanup (part_002 lines 794-805) —
contradicting the claim that every failing stage cancels the scope. -/
theorem acpNewSession_atomic_cex :
    (acpNewSession [] 1 [] ⟨false, true, true, some ⟨true, true⟩, true, some "s"⟩).1 =
      .err .stdinPipeError ∧
    (acpNewSession [] 1 []
      ⟨false, true, true, some ⟨true, true⟩, true, some "s"⟩).2.2.scopeCancelled = false :=
  ⟨rfl, rfl⟩

/-- C2 (amended): on every failing stage AcpNewSession returns an error
and leaves the session table unchanged; whenever the subprocess had been
started, cleanup has killed it and cancelled the execution scope; on the
pipe-creation and spawn failure paths the subprocess was never started
and nothing is killed — but there the execution scope is also not
cancelled, which is the one departure from the original claim. -/
theorem acpNewSession_rollback (tbl : SessionTable) (bufnr : Int)
    (cfgs : List (String × List (String × ConfigVal))) (w : SpawnWorld) (e : AcpError)
    (h : (acpNewSession tbl bufnr cfgs w).1 = .err e) :
    (acpNewSession tbl bufnr cfgs w).2.1 = tbl ∧
    ((acpNewSession tbl bufnr cfgs w).2.2.processStarted = true →
      (acpNewSession tbl bufnr cfgs w).2.2.processKilled = true ∧
      (acpNewSession tbl bufnr cfgs w).2.2.scopeCancelled = true) ∧
    ((acpNewSession tbl bufnr cfgs w).2.2.processStarted = false →
      (acpNewSession tbl bufnr cfgs w).2.2.processKilled = false ∧
      (acpNewSession tbl bufnr cfgs w).2.2.scopeCancelled = false) := by
  obtain ⟨sp, so, st, ir, gw, nr⟩ := w
  cases hl : lookupSession tbl bufnr <;>
    cases sp <;> cases so <;> cases st <;> cases ir <;> cases gw <;>
    cases hc : convertAll cfgs <;> cases nr <;>
    simp_all [acpNewSession, cleanupEffects, noSessionEffects, hl, hc]

/-- Witness for the amended C2 theorem at an initialize failure: the table
stays empty, and the started subprocess was killed with the scope
cancelled. -/
theorem acpNewSession_rollback_witness :
    (acpNewSession [] 1 [] ⟨true, true, true, none, true, none⟩).2.1 = [] ∧
    ((acpNewSession [] 1 [] ⟨true, true, true, none, true, none⟩).2.2.processStarted = true →
      (acpNewSession [] 1 [] ⟨true, true, true, none, true, none⟩).2.2.processKilled = true ∧
      (acpNewSession [] 1 [] ⟨true, true, true, none, true, none⟩).2.2.scopeCancelled = true) ∧
    ((acpNewSession [] 1 [] ⟨true, true, true, none, true, none⟩).2.2.processStarted = false →
      (acpNewSession [] 1 [] ⟨true, true, true, none, true, none⟩).2.2.processKilled = false ∧
      (acpNewSession [] 1 [] ⟨true, true, true, none, true, none⟩).2.2.scopeCancelled = false) :=
  acpNewSession_rollback [] 1 [] ⟨true, true, true, none, true, none⟩ .initializeError rfl

/-- C7: the MCP payload of the new-session request is exactly the
converted descriptor list filtered by the capabilities returned by the
initialize handshake — no payload exists at all when initialize fails, so
filtering happens only after negotiation; descriptors whose transport the
agent did not advertise are absent (in particular every SSE descriptor
when SSE support is not reported), and stdio descriptors are never
filtered out. -/
theorem mcpFilter_after_negotiation (tbl : SessionTable) (bufnr : Int)
    (cfgs : List (String × List (String × ConfigVal))) (w : SpawnWorld)
    (caps : InitCaps) (servers : List McpServer) :
    (w.initResult = some caps → convertAll cfgs = .ok servers →
      ∀ payload,
        (acpNewSession tbl bufnr cfgs w).2.2.newSessionMcpPayload = some payload →
        payload = filterMcpServers caps.mcpHttp caps.mcpSse servers) ∧
    (w.initResult = none →
      (acpNewSession tbl bufnr cfgs w).2.2.newSessionMcpPayload = none ∧
      (acpNewSession tbl bufnr cfgs w).2.2.newSessionSent = false) ∧
    (caps.mcpSse = false →
      ∀ s, McpServer.sse s ∉ filterMcpServers caps.mcpHttp caps.mcpSse servers) ∧
    (caps.mcpHttp = false →
      ∀ s, McpServer.http s ∉ filterMcpServers caps.mcpHttp caps.mcpSse servers) ∧
    (∀ s, McpServer.stdio s ∈ servers →
      McpServer.stdio s ∈ filterMcpServers caps.mcpHttp caps.mcpSse servers) := by
  refine ⟨?_, ?_, ?_, ?_, ?_⟩
  · intro hinit hconv payload hp
    obtain ⟨sp, so, st, ir, gw, nr⟩ := w
    simp only at hinit
    subst hinit
    cases hl : lookupSession tbl bufnr <;>
      cases sp <;> cases so <;> cases st <;> cases gw <;> cases nr <;>
      simp_all [acpNewSession, cleanupEffects, noSessionEffects, hl, hconv]
  · intro hinit
    obtain ⟨sp, so, st, ir, gw, nr⟩ := w
    simp only at hinit
    subst hinit
    cases hl : lookupSession tbl bufnr <;>
      cases sp <;> cases so <;> cases st <;> cases gw <;> cases nr <;>
      simp_all [acpNewSession, cleanupEffects, noSessionEffects, hl]
  · intro hsse s hmem
    rw [filterMcpServers, List.mem_filter] at hmem
    rw [hsse] at hmem
    exact absurd hmem.2 (by simp)
  · intro hhttp s hmem
    rw [filterMcpServers, List.mem_filter] at hmem
    rw [hhttp] at hmem
    exact absurd hmem.2 (by simp)
  · intro s hmem
    rw [filterMcpServers, List.mem_filter]
    exact ⟨hmem, rfl⟩

/-- Witness for the C7 theorem: a configured SSE descriptor is dropped
from the concrete new-session payload when the agent reports no SSE
support, while the stdio descriptor survives. -/
theorem mcpFilter_after_negotiation_witness :
    [McpServer.stdio ⟨"t", "", [], []⟩] =
      filterMcpServers true false
        [.sse ⟨"s", "u", []⟩, .stdio ⟨"t", "", [], []⟩] ∧
    McpServer.sse ⟨"x", "u2", []⟩ ∉ filterMcpServers true false [.sse ⟨"x", "u2", []⟩] :=
  ⟨(mcpFilter_after_negotiation [] 1
      [("s", [("type", ConfigVal.str "sse"), ("url", ConfigVal.str "u")]), ("t", [])]
      ⟨true, true, true, some ⟨true, false⟩, true, some "sid"⟩
      ⟨true, false⟩ [.sse ⟨"s", "u", []⟩, .stdio ⟨"t", "", [], []⟩]).1 rfl rfl
      [McpServer.stdio ⟨"t", "", [], []⟩] rfl,
   (mcpFilter_after_negotiation [] 1 [] ⟨true, true, true, none, true, none⟩
      ⟨true, false⟩ [.sse ⟨"x", "u2", []⟩]).2.2.1 rfl ⟨"x", "u2", []⟩⟩

/-- C8: contrary to the claim, a missing (or non-string) `url` in an
http/sse configuration is not reported as a returned error — the bare
type assertion panics; with a `url` present the absent `headers` mapping
becomes an empty (never nil) header list. -/
theorem convertMcp_missing_url_panics :
    convertMcpConfigToMcpServer "x" [("type", ConfigVal.str "http")] = .panic ∧
    convertMcpConfigToMcpServer "x" [("type", ConfigVal.str "sse")] = .panic ∧
    convertMcpConfigToMcpServer "x"
      [("type", ConfigVal.str "http"), ("url", ConfigVal.other)] = .panic ∧
    convertMcpConfigToMcpServer "z"
      [("type", ConfigVal.str "http"), ("url", ConfigVal.str "https://x")] =
      .ok (.http ⟨"z", "https://x", []⟩) ∧
    convertMcpConfigToMcpServer "z"
      [("type", ConfigVal.str "sse"), ("url", ConfigVal.str "https://x")] =
      .ok (.sse ⟨"z", "https://x", []⟩) :=
  ⟨rfl, rfl, rfl, rfl, rfl⟩

/-- C9 counterexample: the claimed lock discipline fails on the code —
`AcpNewSession` acquires the manager mutex on entry and releases it only
at return (`defer m.mu.Unlock()`, part_002 lines 769-770), so the mutex
is held during the initialize handshake, a blocking protocol call. -/
theorem sessionManager_lock_claim_cex :
    lockNeverHeldOnBlocking acpNewSessionEvents = false ∧
    acpNewSessionEvents.getD 3 .release = .initializeCall ∧
    isBlockingCall .initializeCall = true ∧
    mutexHeldAt acpNewSessionEvents 3 = true := by decide

/-- C9 (amended): SendPrompt, Cancel and SetMode hold the manager mutex
only around the table lookup and never across their blocking protocol
calls, and Stop performs no blocking protocol call under the lock; but
NewSession holds the mutex from entry to return — across subprocess
spawn, the initialize handshake and the new-session handshake — so a slow
handshake on one buffer does block session operations on other buffers. -/
theorem sessionManager_lock_discipline :
    lockNeverHeldOnBlocking acpSendPromptEvents = true ∧
    lockNeverHeldOnBlocking acpCancelEvents = true ∧
    lockNeverHeldOnBlocking acpSetModeEvents = true ∧
    lockNeverHeldOnBlocking acpStopEvents = true ∧
    lockNeverHeldOnBlocking acpNewSessionEvents = false ∧
    isBlockingCall (acpNewSessionEvents.getD 2 .release) = true ∧
    mutexHeldAt acpNewSessionEvents 2 = true ∧
    isBlockingCall (acpNewSessionEvents.getD 3 .release) = true ∧
    mutexHeldAt acpNewSessionEvents 3 = true ∧
    isBlockingCall (acpNewSessionEvents.getD 4 .release) = true ∧
    mutexHeldAt acpNewSessionEvents 4 = true := by decide

/-- C10: for every session table and buffer, SendPrompt with empty prompt
text returns the empty-prompt error without reading the session table —
in particular the result is never the not-found error, even when no
session exists for the buffer. -/
theorem acpSendPrompt_empty_before_lookup (tbl : SessionTable) (bufnr : Int) :
    acpSendPrompt tbl bufnr [] = (.error .emptyPrompt, false) := rfl

end AgentChat
